import Mathlib

/-!
A shallow embedding of the core of `src/sord.c` (an in-memory RDF quad store
built on GLib `GSequence` and `GHashTable`), together with proofs settling the
frozen claims about it.

Modelling conventions:
* C pointers to interned nodes are modelled as allocation indices (`Nat`) into
  the world's `nodes` list; `NULL` is `Option.none`.  Pointer equality is index
  equality; allocation indices are never reused.
* Byte strings (`uint8_t*` buffers, NUL terminated) are `List Nat` of their
  bytes (without the terminator); `strcmp` is modelled sign-faithfully.
* `GHashTable` with hash `h` and equality `eq` is modelled as a list of
  entries; lookup finds an entry whose full hash equals the key's hash and
  which `eq`-matches the key.  (GLib compares stored 32-bit hashes before
  calling the equality callback.)
* `g_sequence_search(seq, key, cmp)` on a sorted sequence returns the iterator
  at the first element strictly greater than `key` — the insertion position
  after all elements comparing equal (GLib's tree descent walks right on equal
  comparisons; `g_sequence_lookup` was added to GLib later precisely because
  `g_sequence_search` does not locate equal elements).  On a sorted list this
  is the first index whose element compares greater than the key.
* Counters (`SordCount` = `intptr_t`) are signed: modelled as `Int`.
-/

namespace Sord

/-- Byte strings (the bytes of a NUL-terminated C string, terminator omitted). -/
abbrev Str := List Nat

/-- C `strcmp`, sign-faithful: difference of the first differing bytes, where
the NUL terminator (list end) is less than every nonzero byte. -/
def strcmp : Str → Str → Int
  | [], [] => 0
  | [], b :: _ => 0 - (b : Int)
  | a :: _, [] => (a : Int)
  | a :: as, b :: bs => if a = b then strcmp as bs else (a : Int) - (b : Int)

/-- GLib `g_str_hash`: djb2-style, `h = h * 33 + byte` over a 32-bit counter
starting at 5381. -/
def gStrHash (s : Str) : Nat :=
  s.foldl (fun h c => (h * 33 + c) % 4294967296) 5381

/-- `SordNodeType` (sord.h): SORD_URI = 1, SORD_BLANK = 2, SORD_LITERAL = 3. -/
inductive NodeType where
  | uri
  | blank
  | literal
deriving DecidableEq, Repr

/-- Numeric value of the `SordNodeType` enum, used by `sord_node_compare`'s
`a->type - b->type`. -/
def NodeType.code : NodeType → Int
  | .uri => 1
  | .blank => 2
  | .literal => 3

/-- `struct _SordNode` (sord_internal.h): type, buffer, literal datatype
(pointer to a node, or null), literal language (interned string, or null) and
the reference count (`SordCount refs`).  `n_bytes` is `buf.length + 1` and is
not modelled separately. -/
structure NodeData where
  ty : NodeType
  buf : Str
  datatype : Option Nat
  lang : Option Str
  refs : Int
deriving DecidableEq, Repr

instance : Inhabited NodeData := ⟨⟨.uri, [], none, none, 0⟩⟩

/-- `struct _SordWorld`: the node heap (allocation index = pointer), the
`names` hash table (URI or blank identifier string => node), the `literals`
hash table (node => node, keyed by the node itself) and the `n_nodes`
counter. -/
structure World where
  nodes : List NodeData
  names : List (Str × Nat)
  literals : List Nat
  nNodes : Int
deriving Repr

/-- Dereference a node pointer. -/
def getNode (w : World) (id : Nat) : NodeData := w.nodes.getD id default

/-- `sord_world_new`. -/
def sordWorldNew : World := ⟨[], [], [], 0⟩

/-- `sord_literal_hash`: `g_str_hash(buf) + (lang ? g_str_hash(lang) : 0)`,
an unsigned 32-bit sum. -/
def sordLiteralHash (n : NodeData) : Nat :=
  (gStrHash n.buf + (match n.lang with | some l => gStrHash l | none => 0)) % 4294967296

/-- `sord_literal_equal`: compares only the lexical forms (the `FIXME: type,
lang` in the source notes that datatype and language are ignored). -/
def sordLiteralEqual (a b : NodeData) : Bool :=
  a.buf == b.buf

/-- `sord_node_compare`: type difference first, then `strcmp` of the buffers
(for literals too — the `TODO: lang, type` in the source notes that language
and datatype are not compared). -/
def sordNodeCompare (a b : NodeData) : Int :=
  if a.ty ≠ b.ty then a.ty.code - b.ty.code
  else strcmp a.buf b.buf

/-- `sord_node_equals`: `sord_node_compare(a, b) == 0`. -/
def sordNodeEquals (w : World) (a b : Nat) : Bool :=
  sordNodeCompare (getNode w a) (getNode w b) == 0

/-- A `SordNode` pointer: `none` is `NULL`. -/
abbrev NodeRef := Option Nat

/-- `sord_id_compare`: equal pointers or a null compare by pointer difference
(sign-faithful: null is less than every non-null pointer); two distinct
non-null pointers compare structurally via `sord_node_compare`. -/
def sordIdCompare (w : World) (a b : NodeRef) : Int :=
  match a, b with
  | none, none => 0
  | none, some _ => -1
  | some _, none => 1
  | some x, some y => if x = y then 0 else sordNodeCompare (getNode w x) (getNode w y)

/-- `sord_id_match`: pointers are equivalent, or one is a wildcard (null). -/
def sordIdMatch (a b : NodeRef) : Bool :=
  a == none || b == none || a == b

/-- `SordQuad`: a fixed array of four node pointers (`e0..e3` are the array
elements; in logical order they hold subject, predicate, object, graph, in an
index they hold the permuted key). -/
structure Quad where
  e0 : NodeRef
  e1 : NodeRef
  e2 : NodeRef
  e3 : NodeRef
deriving DecidableEq, Repr

instance : Inhabited Quad := ⟨⟨none, none, none, none⟩⟩

/-- Array indexing `tup[i]` of a `SordQuad`. -/
def Quad.slot (q : Quad) : Fin 4 → NodeRef := ![q.e0, q.e1, q.e2, q.e3]

/-- Build a `SordQuad` from its four elements by index. -/
def quadOf (f : Fin 4 → NodeRef) : Quad := ⟨f 0, f 1, f 2, f 3⟩

/-- `sord_quad_match` / `sord_quad_match_inline`: slot-wise `sord_id_match`. -/
def sordQuadMatch (x y : Quad) : Bool :=
  sordIdMatch x.e0 y.e0 && sordIdMatch x.e1 y.e1 &&
  sordIdMatch x.e2 y.e2 && sordIdMatch x.e3 y.e3

/-- `sord_quad_compare`: lexicographic by slots 0..3 using `sord_id_compare`,
returning the first nonzero comparison. -/
def sordQuadCompare (w : World) (x y : Quad) : Int :=
  let c0 := sordIdCompare w x.e0 y.e0
  if c0 ≠ 0 then c0 else
  let c1 := sordIdCompare w x.e1 y.e1
  if c1 ≠ 0 then c1 else
  let c2 := sordIdCompare w x.e2 y.e2
  if c2 ≠ 0 then c2 else
  sordIdCompare w x.e3 y.e3

/-- The `orderings` table: for each of the twelve orders (SPO, SOP, OPS, OSP,
PSO, POS, GSPO, GSOP, GOPS, GOSP, GPSO, GPOS), the logical slot held at each
storage position. -/
def orderings : Fin 12 → Fin 4 → Fin 4 :=
  ![![0,1,2,3], ![0,2,1,3], ![2,1,0,3], ![2,0,1,3], ![1,0,2,3], ![1,2,0,3],
    ![3,0,1,2], ![3,0,2,1], ![3,2,1,0], ![3,2,0,1], ![3,1,0,2], ![3,1,2,0]]

/-- `orderings` indexed by a plain integer order number. -/
def orderingsN (k : Nat) : Fin 4 → Fin 4 :=
  if h : k < 12 then orderings ⟨k, h⟩ else fun i => i

/-- `key[i] = tup[ordering[i]]`: permute a logical quad into an index's
storage order. -/
def permuteKey (ord : Fin 4 → Fin 4) (tup : Quad) : Quad :=
  quadOf (fun i => tup.slot (ord i))

/-- Inverse of an ordering permutation (by search over the four positions). -/
def invOrd (ord : Fin 4 → Fin 4) (j : Fin 4) : Fin 4 :=
  (((List.finRange 4).find? (fun i => decide (ord i = j))).getD j)

/-- `sord_iter_get`: `id[ordering[i]] = key[i]`, i.e. the logical slot `j`
holds `key[ordering⁻¹ j]`. -/
def iterGetQuad (ord : Fin 4 → Fin 4) (key : Quad) : Quad :=
  quadOf (fun j => key.slot (invOrd ord j))

/-! ### World interning (`sord_new_uri` / `sord_new_blank` / `sord_new_literal`) -/

/-- `sord_lookup_name`: `g_hash_table_lookup(world->names, str)` — the names
table uses `g_str_hash`/`g_str_equal`, so lookup is association by string
equality. -/
def sordLookupName (w : World) (str : Str) : Option Nat :=
  (w.names.find? (fun p => p.1 == str)).map (·.2)

/-- `sord_new_node`: a fresh node value with zero refs and null datatype and
language. -/
def sordNewNodeData (t : NodeType) (data : Str) : NodeData :=
  ⟨t, data, none, none, 0⟩

/-- `sord_new_literal_node`: a literal node carrying the given datatype
pointer and the interned language string (both stored unconditionally). -/
def sordNewLiteralNode (datatype : Option Nat) (str : Str) (lang : Option Str) : NodeData :=
  { sordNewNodeData .literal str with datatype := datatype, lang := lang }

/-- `sord_lookup_literal`: `g_hash_table_lookup(world->literals, node)` with
hash `sord_literal_hash` and equality `sord_literal_equal`; GLib compares the
stored full hash before calling the equality callback. -/
def sordLookupLiteral (w : World) (datatype : Option Nat) (str : Str)
    (lang : Option Str) : Option Nat :=
  let key := sordNewLiteralNode datatype str lang
  w.literals.find? (fun id =>
    sordLiteralHash (getNode w id) == sordLiteralHash key &&
    sordLiteralEqual (getNode w id) key)

/-- `sord_add_node`: reset the node's refs to zero and bump `n_nodes`. -/
def sordAddNodeW (w : World) (id : Nat) : World :=
  { w with nodes := w.nodes.set id { getNode w id with refs := 0 },
           nNodes := w.nNodes + 1 }

/-- `sord_new_uri_counted`: return the interned node on a hit, otherwise
allocate, insert into `names` and count it. -/
def sordNewURI (w : World) (str : Str) : World × Nat :=
  match sordLookupName w str with
  | some id => (w, id)
  | none =>
      let id := w.nodes.length
      let w1 := { w with nodes := w.nodes ++ [sordNewNodeData .uri str],
                         names := w.names ++ [(str, id)] }
      (sordAddNodeW w1 id, id)

/-- `sord_new_blank_counted`: like `sord_new_uri_counted` but with the blank
node type (the same `names` table is used). -/
def sordNewBlank (w : World) (str : Str) : World × Nat :=
  match sordLookupName w str with
  | some id => (w, id)
  | none =>
      let id := w.nodes.length
      let w1 := { w with nodes := w.nodes ++ [sordNewNodeData .blank str],
                         names := w.names ++ [(str, id)] }
      (sordAddNodeW w1 id, id)

/-- `sord_new_literal_counted` (and `sord_new_literal`): return the interned
node on a hit, otherwise allocate, insert into `literals` and count it. -/
def sordNewLiteral (w : World) (datatype : Option Nat) (str : Str)
    (lang : Option Str) : World × Nat :=
  match sordLookupLiteral w datatype str lang with
  | some id => (w, id)
  | none =>
      let id := w.nodes.length
      let w1 := { w with nodes := w.nodes ++ [sordNewLiteralNode datatype str lang],
                         literals := w.literals ++ [id] }
      (sordAddNodeW w1 id, id)

/-- `sord_node_get_datatype`. -/
def sordNodeGetDatatype (w : World) (id : Nat) : Option Nat :=
  (getNode w id).datatype

/-- `sord_node_get_language`. -/
def sordNodeGetLanguage (w : World) (id : Nat) : Option Str :=
  (getNode w id).lang

/-! ### The model and its indices -/

/-- `struct _SordModel`: one optional `GSequence` per order, plus the quad
counter. -/
structure Model where
  indices : Fin 12 → Option (List Quad)
  nQuads : Int

/-- Index access by a plain order number. -/
def getIndexN (m : Model) (k : Nat) : Option (List Quad) :=
  if h : k < 12 then m.indices ⟨k, h⟩ else none

/-- Replace one index of the model. -/
def setIndex (m : Model) (i : Fin 12) (l : List Quad) : Model :=
  { m with indices := fun j => if j = i then some l else m.indices j }

/-- `sord_new(world, indices, graphs)`: materialise the selected triple
orders (and their graph variants when `graphs` is set), then force the
default order SPO. -/
def sordNew (indices : Nat) (graphs : Bool) : Model :=
  let sel : Fin 12 → Option (List Quad) := fun i =>
    if i.val < 6 then
      if indices.testBit i.val then some [] else none
    else
      if indices.testBit (i.val - 6) ∧ graphs then some [] else none
  { indices := fun i => if i.val = 0 ∧ sel 0 = none then some [] else sel i,
    nQuads := 0 }

/-- `g_sequence_search` on a sorted sequence: the index of the first element
comparing strictly greater than the key (all equal elements lie before it).
`index_search` in the source is exactly this call with `sord_quad_compare`. -/
def seqSearchIdx (w : World) (key : Quad) : List Quad → Nat
  | [] => 0
  | x :: rest => if sordQuadCompare w x key > 0 then 0 else seqSearchIdx w key rest + 1

/-- `g_sequence_insert_before` at position `n`. -/
def insertAt (l : List Quad) (n : Nat) (q : Quad) : List Quad :=
  l.take n ++ q :: l.drop n

/-- `sord_add_to_index`: search, skip if the element at the returned position
compares equal to the key (the duplicate check), else insert before it.
Returns whether an insert happened, with the updated index. -/
def sordAddToIndex (w : World) (l : List Quad) (key : Quad) : Bool × List Quad :=
  let cur := seqSearchIdx w key l
  if cur < l.length ∧ sordQuadCompare w (l.getD cur default) key = 0 then
    (false, l)
  else
    (true, insertAt l cur key)

/-- The per-order loop of `sord_add`: on the first order whose
`sord_add_to_index` reports the quad already stored, return immediately
(keeping the inserts already made in earlier orders). -/
def sordAddLoop (w : World) (tup : Quad) : Model → List (Fin 12) → Model × Bool
  | m, [] => (m, true)
  | m, i :: rest =>
      match m.indices i with
      | none => sordAddLoop w tup m rest
      | some l =>
          let r := sordAddToIndex w l (permuteKey (orderings i) tup)
          if r.1 then sordAddLoop w tup (setIndex m i r.2) rest
          else (m, false)

/-- `sord_add_quad_ref`: bump the node's reference count (null is ignored). -/
def sordAddQuadRef (w : World) : NodeRef → World
  | none => w
  | some id =>
      { w with nodes := w.nodes.set id { getNode w id with refs := (getNode w id).refs + 1 } }

/-- `sord_drop_node`: remove the node from the world's interner (`literals`
keyed by the node via hash + equality, `names` keyed by the buffer string);
on failure the node leaks and nothing changes. -/
def sordDropNode (w : World) (id : Nat) : World :=
  let node := getNode w id
  if node.ty = .literal then
    match w.literals.findIdx? (fun k =>
        sordLiteralHash (getNode w k) == sordLiteralHash node &&
        sordLiteralEqual (getNode w k) node) with
    | some k => { w with literals := w.literals.eraseIdx k }
    | none => w
  else
    match w.names.findIdx? (fun p => p.1 == node.buf) with
    | some k => { w with names := w.names.eraseIdx k }
    | none => w

/-- `sord_drop_quad_ref`: decrement the refs; when they reach exactly zero,
drop the node from the interner. -/
def sordDropQuadRef (w : World) : NodeRef → World
  | none => w
  | some id =>
      let r := (getNode w id).refs - 1
      let w1 := { w with nodes := w.nodes.set id { getNode w id with refs := r } }
      if r = 0 then sordDropNode w1 id else w1

/-- Reference bumps of `sord_add`: one per quad slot. -/
def addRefsAll (w : World) (tup : Quad) : World :=
  (List.finRange 4).foldl (fun w i => sordAddQuadRef w (tup.slot i)) w

/-- Reference drops of `sord_remove`: one per quad slot. -/
def dropRefsAll (w : World) (tup : Quad) : World :=
  (List.finRange 4).foldl (fun w i => sordDropQuadRef w (tup.slot i)) w

/-- `sord_add`: insert the permuted key into every materialised index; if
some index reports the quad already stored, stop (asserting it was the first).
Otherwise bump the refs of all four slots and increment `n_quads`. -/
def sordAdd (w : World) (m : Model) (tup : Quad) : World × Model :=
  let r := sordAddLoop w tup m (List.finRange 12)
  if r.2 then (addRefsAll w tup, { r.1 with nQuads := r.1.nQuads + 1 })
  else (w, r.1)

/-- The per-order loop of `sord_remove`: in each materialised index, search
and erase at the returned position unless it is the end (in which case return
immediately, keeping the erasures already made in earlier orders). -/
def sordRemoveLoop (w : World) (tup : Quad) : Model → List (Fin 12) → Model × Bool
  | m, [] => (m, true)
  | m, i :: rest =>
      match m.indices i with
      | none => sordRemoveLoop w tup m rest
      | some l =>
          let cur := seqSearchIdx w (permuteKey (orderings i) tup) l
          if cur < l.length then
            sordRemoveLoop w tup (setIndex m i (l.eraseIdx cur)) rest
          else (m, false)

/-- `sord_remove`: erase from every materialised index; if the search hit the
end of some index, stop (asserting it was the first).  Otherwise drop the refs
of all four slots and decrement `n_quads`. -/
def sordRemove (w : World) (m : Model) (tup : Quad) : World × Model :=
  let r := sordRemoveLoop w tup m (List.finRange 12)
  if r.2 then (dropRefsAll w tup, { r.1 with nQuads := r.1.nQuads - 1 })
  else (w, r.1)

/-- `sord_num_quads`. -/
def sordNumQuads (m : Model) : Int := m.nQuads

/-- `sord_num_nodes`. -/
def sordNumNodes (w : World) : Int := w.nNodes

/-! ### The iterator engine -/

/-- `SearchMode`: ALL, SINGLE, RANGE, FILTER_RANGE, FILTER_ALL. -/
inductive SearchMode where
  | all
  | single
  | range
  | filterRange
  | filterAll
deriving DecidableEq, Repr

/-- `struct _SordIter` (minus the model back-pointer): cursor position in the
chosen index, the pattern permuted into storage order, the order number, the
mode, the range-prefix length, the end flag, and the skip-graphs flag. -/
structure IterState where
  cur : Nat
  pat : Quad
  ordIdx : Nat
  mode : SearchMode
  nPfx : Nat
  endFlag : Bool
  skipGraphs : Bool
deriving Repr

/-- First three storage slots pointer-equal (`key[i] != initial[i]` checks of
`sord_iter_forward`). -/
def sameKey3 (x y : Quad) : Bool :=
  x.e0 == y.e0 && x.e1 == y.e1 && x.e2 == y.e2

/-- The skip-graphs loop of `sord_iter_forward`: advance, then keep advancing
while the first three slots equal those of the entry the step started from.
The fuel argument only bounds the loop; with fuel ≥ `l.length` it never runs
out. -/
def forwardSkip (l : List Quad) (initial : Quad) (cur : Nat) : Nat → Nat × Bool
  | 0 => (cur, true)
  | fuel + 1 =>
      let c := cur + 1
      if h : c < l.length then
        if sameKey3 (l.get ⟨c, h⟩) initial then forwardSkip l initial c fuel
        else (c, false)
      else (c, true)

/-- `sord_iter_forward`: plain step when graphs are not skipped, otherwise the
skip loop.  Returns the new cursor and whether it is the end. -/
def iterForward (l : List Quad) (cur : Nat) (skip : Bool) : Nat × Bool :=
  if !skip then (cur + 1, decide (l.length ≤ cur + 1))
  else forwardSkip l (l.getD cur default) cur (l.length + 1)

/-- `sord_iter_seek_match` (FILTER_ALL): seek forward until the current entry
matches the pattern; end when the index is exhausted. -/
def seekMatch (l : List Quad) (pat : Quad) (skip : Bool) : Nat → Nat → Nat × Bool
  | cur, 0 => (cur, true)
  | cur, fuel + 1 =>
      if h : cur < l.length then
        if sordQuadMatch (l.get ⟨cur, h⟩) pat then (cur, false)
        else seekMatch l pat skip (iterForward l cur skip).1 fuel
      else (cur, true)

/-- The `for (i = 0; i < n_prefix; ...)` mismatch test of
`sord_iter_seek_match_range` and `sord_iter_next` (RANGE): some slot below the
prefix length fails `sord_id_match` against the pattern. -/
def preMismatch (key pat : Quad) (n : Nat) : Bool :=
  (List.finRange 4).any (fun i => decide (i.val < n) && !(sordIdMatch (key.slot i) (pat.slot i)))

/-- `sord_iter_seek_match_range` (FILTER_RANGE): seek forward until a match,
ending when a prefix slot stops matching or the index is exhausted. -/
def seekMatchRange (l : List Quad) (pat : Quad) (n : Nat) (skip : Bool) :
    Nat → Nat → Nat × Bool
  | cur, 0 => (cur, true)
  | cur, fuel + 1 =>
      if h : cur < l.length then
        let key := l.get ⟨cur, h⟩
        if sordQuadMatch key pat then (cur, false)
        else if preMismatch key pat n then (cur, true)
        else
          let f := iterForward l cur skip
          if f.2 then (f.1, true) else seekMatchRange l pat n skip f.1 fuel
      else (cur, true)

/-- `sord_iter_new`: permute the pattern into storage order, set
`skip_graphs = order < GSPO`, and for the filtering modes run the initial
seek.  (For ALL/SINGLE/RANGE the C asserts that the entry under the cursor
matches the pattern; the model records no assertion.) -/
def sordIterNew (l : List Quad) (cur : Nat) (logicalPat : Quad) (orderN : Nat)
    (mode : SearchMode) (nPfx : Nat) : IterState :=
  let pat := permuteKey (orderingsN orderN) logicalPat
  let skip := decide (orderN < 6)
  match mode with
  | .all => ⟨cur, pat, orderN, mode, nPfx, false, skip⟩
  | .single => ⟨cur, pat, orderN, mode, nPfx, false, skip⟩
  | .range => ⟨cur, pat, orderN, mode, nPfx, false, skip⟩
  | .filterRange =>
      let r := seekMatchRange l pat nPfx skip cur (l.length + 1)
      ⟨r.1, pat, orderN, mode, nPfx, r.2, skip⟩
  | .filterAll =>
      let r := seekMatch l pat skip cur (l.length + 1)
      ⟨r.1, pat, orderN, mode, nPfx, r.2, skip⟩

/-- `sord_begin`: null iterator on an empty model, otherwise an ALL iterator
over the default order SPO from its first entry, with the all-wildcard
pattern. -/
def sordBegin (m : Model) : Option IterState :=
  if m.nQuads = 0 then none
  else some (sordIterNew ((m.indices 0).getD []) 0 default 0 .all 0)

/-- `sord_iter_end`: true for the null iterator or one whose end flag is
set. -/
def sordIterEnd : Option IterState → Bool
  | none => true
  | some it => it.endFlag

/-- The backward-walk loop of `index_lower_bound`: while not at the begin
position and both the current and the previous entry match the key, step
left. -/
def lowerBoundWalkLeft (w : World) (l : List Quad) (key : Quad) : Nat → Nat
  | 0 => 0
  | i + 1 =>
      if sordQuadMatch key (l.getD (i + 1) default) then
        if sordQuadMatch key (l.getD i default) then lowerBoundWalkLeft w l key i
        else i + 1
      else i + 1

/-- `index_lower_bound`: `g_sequence_search`, then correct leftward — if the
landing position (or, at the end, its predecessor) does not match the key, try
one step left; from a matching position walk left to the first match. -/
def indexLowerBound (w : World) (l : List Quad) (key : Quad) : Nat :=
  let i0 := seqSearchIdx w key l
  if i0 = 0 then i0
  else
    let i1 := if i0 = l.length then i0 - 1 else i0
    if sordQuadMatch key (l.getD i1 default) then lowerBoundWalkLeft w l key i1
    else if sordQuadMatch key (l.getD (i1 - 1) default) then
      lowerBoundWalkLeft w l key (i1 - 1)
    else i1

/-- `sord_has_index`: when searching by graph, first add GSPO to the order and
one to the prefix length (these writes persist even when the check fails),
then test whether the index is materialised. -/
def sordHasIndex (m : Model) (ord n : Nat) (gs : Bool) : Bool × Nat × Nat :=
  let o2 := if gs then ord + 6 else ord
  let n2 := if gs then n + 1 else n
  ((getIndexN m o2).isSome, o2, n2)

/-- `sord_best_index`: order numbers are SPO 0, SOP 1, OPS 2, OSP 3, PSO 4,
POS 5, GSPO 6.  Returns (order, mode, range-prefix length), threading the
in-place updates of `sord_has_index` exactly as the C does (so a failed first
check leaves its prefix increment behind). -/
def sordBestIndex (m : Model) (pat : Quad) : Nat × SearchMode × Nat :=
  let gs := pat.e3 ≠ none
  let s := pat.e0 ≠ none
  let p := pat.e1 ≠ none
  let o := pat.e2 ≠ none
  if ¬s ∧ ¬p ∧ ¬o then ((if gs then 6 else 0), .all, 0)
  else if s ∧ p ∧ o then ((if gs then 6 else 0), .single, 0)
  else
    let g : Nat × Nat × Nat :=
      if ¬s ∧ ¬p ∧ o then (2, 3, 1)
      else if ¬s ∧ p ∧ ¬o then (5, 4, 1)
      else if ¬s ∧ p ∧ o then (2, 5, 2)
      else if s ∧ ¬p ∧ ¬o then (0, 1, 1)
      else if s ∧ ¬p ∧ o then (1, 3, 2)
      else (0, 4, 2)
    let h0 := sordHasIndex m g.1 g.2.2 (decide gs)
    if h0.1 then (h0.2.1, .range, h0.2.2)
    else
      let h1 := sordHasIndex m g.2.1 h0.2.2 (decide gs)
      if h1.1 then (h1.2.1, .range, h1.2.2)
      else
        let fr : Option (Nat × Nat) :=
          if ¬s ∧ p ∧ o then some (3, 4)
          else if s ∧ ¬p ∧ o then some (0, 2)
          else if s ∧ p ∧ ¬o then some (1, 5)
          else none
        match fr with
        | some f =>
            let k0 := sordHasIndex m f.1 1 (decide gs)
            if k0.1 then (k0.2.1, .filterRange, k0.2.2)
            else
              let k1 := sordHasIndex m f.2 k0.2.2 (decide gs)
              if k1.1 then (k1.2.1, .filterRange, k1.2.2)
              else if gs then (6, .filterRange, 1) else (0, .filterAll, k1.2.2)
        | none => if gs then (6, .filterRange, 1) else (0, .filterAll, h1.2.2)

/-- `sord_find`: all-wildcard patterns go to `sord_begin`; otherwise pick the
best index, permute the pattern, force SINGLE when all four permuted slots are
bound, take the lower bound, and return null when it is the end or (for
RANGE/SINGLE) when the entry there fails to match; otherwise build the
iterator. -/
def sordFind (w : World) (m : Model) (pat : Quad) : Option IterState :=
  if pat.e0 = none ∧ pat.e1 = none ∧ pat.e2 = none ∧ pat.e3 = none then sordBegin m
  else
    let b := sordBestIndex m pat
    let ord := orderingsN b.1
    let a := pat.slot (ord 0)
    let b2 := pat.slot (ord 1)
    let c := pat.slot (ord 2)
    let d := pat.slot (ord 3)
    let mode := if a ≠ none ∧ b2 ≠ none ∧ c ≠ none ∧ d ≠ none then SearchMode.single else b.2.1
    let searchKey : Quad := ⟨a, b2, c, d⟩
    let db := (getIndexN m b.1).getD []
    let cur := indexLowerBound w db searchKey
    if cur = db.length then none
    else if (mode = .range ∨ mode = .single) ∧
        sordQuadMatch searchKey (db.getD cur default) = false then none
    else some (sordIterNew db cur pat b.1 mode b.2.2)

/-- The remainder of a `begin`/ALL iteration with `skip_graphs` set, after an
entry `prev` has been read: `sord_iter_forward` drops every following entry
whose first three slots equal `prev`'s, then the next differing entry is read
and becomes the new `prev`. -/
def skipWalk (prev : Quad) : List Quad → List Quad
  | [] => []
  | y :: t => if sameKey3 y prev then skipWalk prev t else y :: skipWalk y t

/-- The entries visited by the `begin`/ALL iteration loop over one index with
`skip_graphs` set (`sord_iter_next`, mode ALL, advancing with
`sord_iter_forward`'s skip loop): the first entry, then the skip walk. -/
def allSkipYields : List Quad → List Quad
  | [] => []
  | x :: rest => x :: skipWalk x rest

/-- The quads read by `sord_iter_get` over a full `sord_begin` iteration
(`for (i = begin; !end(i); next(i)) get(i)`): nothing on an empty model (null
iterator), otherwise the skip-graphs ALL walk over the SPO index, each key
permuted back to logical order. -/
def sordBeginYields (m : Model) : List Quad :=
  if m.nQuads = 0 then []
  else (allSkipYields ((m.indices 0).getD [])).map (iterGetQuad (orderingsN 0))

/-! ### Operation sequences -/

/-- The mutating operations of the public surface, for whole-execution
invariants. -/
inductive SordOp where
  | newUri (s : Str)
  | newBlank (s : Str)
  | newLit (datatype : Option Nat) (s : Str) (lang : Option Str)
  | add (q : Quad)
  | remove (q : Quad)

/-- A world paired with one model over it. -/
structure SordState where
  world : World
  model : Model

/-- Apply one operation to the state. -/
def applyOp (st : SordState) : SordOp → SordState
  | .newUri s => { st with world := (sordNewURI st.world s).1 }
  | .newBlank s => { st with world := (sordNewBlank st.world s).1 }
  | .newLit dt s lg => { st with world := (sordNewLiteral st.world dt s lg).1 }
  | .add q => ⟨(sordAdd st.world st.model q).1, (sordAdd st.world st.model q).2⟩
  | .remove q => ⟨(sordRemove st.world st.model q).1, (sordRemove st.world st.model q).2⟩

/-- Apply a sequence of operations to the state. -/
def applyOps (st : SordState) (ops : List SordOp) : SordState :=
  ops.foldl applyOp st

/-! ### Concrete fixtures used by the claim theorems

All node identifiers below are allocation indices in construction order:
in `exW` the URI nodes are "s" = 0, "p" = 1, "o" = 2, "a" = 3, "b" = 4
(byte strings `[115]`, `[112]`, `[111]`, `[97]`, `[98]`). -/

/-- "hello" -/
def exHello : Str := [104, 101, 108, 108, 111]

/-- "en" -/
def exEn : Str := [101, 110]

/-- "fr" -/
def exFr : Str := [102, 114]

/-- World with the five interned URIs "s", "p", "o", "a", "b". -/
def exW : World :=
  (sordNewURI (sordNewURI (sordNewURI (sordNewURI (sordNewURI
    sordWorldNew [115]).1 [112]).1 [111]).1 [97]).1 [98]).1

/-- The quad (s, p, o) in the default graph. -/
def exQ : Quad := ⟨some 0, some 1, some 2, none⟩

/-- The quad (s, p, o) in graph "a". -/
def exQga : Quad := ⟨some 0, some 1, some 2, some 3⟩

/-- The quad (s, p, o) in graph "b". -/
def exQgb : Quad := ⟨some 0, some 1, some 2, some 4⟩

/-- The quad (a, p, o): absent from every example model. -/
def exQapo : Quad := ⟨some 3, some 1, some 2, none⟩

/-- The quad (a, p, s): absent from every example model. -/
def exQaps : Quad := ⟨some 3, some 1, some 0, none⟩

/-- An SPO-only model over `exW` holding the single quad (s, p, o). -/
def exAdd1 : World × Model := sordAdd exW (sordNew 1 false) exQ

/-- `exAdd1` after adding (s, p, o) a second time. -/
def exAdd2 : World × Model := sordAdd exAdd1.1 exAdd1.2 exQ

/-- `exAdd1` after removing the present quad (s, p, o). -/
def exRemPresent : World × Model := sordRemove exAdd1.1 exAdd1.2 exQ

/-- `exAdd1` after removing the absent quad (a, p, o). -/
def exRemAbsent : World × Model := sordRemove exAdd1.1 exAdd1.2 exQapo

/-- An SPO + OPS model (index bitmask 5) over `exW` holding (s, p, o). -/
def exM2 : World × Model := sordAdd exW (sordNew 5 false) exQ

/-- `exM2` after removing the absent quad (a, p, s). -/
def exM2r : World × Model := sordRemove exM2.1 exM2.2 exQaps

/-- An SPO + GSPO model (graphs tracked) holding (s, p, o, a). -/
def exG1 : World × Model := sordAdd exW (sordNew 1 true) exQga

/-- `exG1` after also adding (s, p, o, b). -/
def exG2 : World × Model := sordAdd exG1.1 exG1.2 exQgb

/-- An SPO + GSPO model (graphs tracked) holding only (s, p, o, b). -/
def exG3 : World × Model := sordAdd exW (sordNew 1 true) exQgb

/-- The pattern (*, *, *, a): graph bound, no matching quad in `exG3`. -/
def exPat9 : Quad := ⟨none, none, none, some 3⟩

/-- The literal "hello"@en in a fresh world (node 0). -/
def exLit1 : World × Nat := sordNewLiteral sordWorldNew none exHello (some exEn)

/-- The literal "hello"@fr interned after `exLit1` (node 1). -/
def exLit2 : World × Nat := sordNewLiteral exLit1.1 none exHello (some exFr)

/-- A fresh world with the URI "x" (node 0). -/
def exDT : World × Nat := sordNewURI sordWorldNew [120]

/-- The URI "y" interned after `exDT` (node 1). -/
def exDT2 : World × Nat := sordNewURI exDT.1 [121]

/-- The literal "hello" with datatype "x". -/
def exLit3 : World × Nat := sordNewLiteral exDT2.1 (some exDT.2) exHello none

/-- The literal "hello" with datatype "y", interned after `exLit3`. -/
def exLit4 : World × Nat := sordNewLiteral exLit3.1 (some exDT2.2) exHello none

/-- The literal "hi" constructed with both datatype "x" and language "en". -/
def exLit5 : World × Nat := sordNewLiteral exDT.1 (some exDT.2) [104, 105] (some exEn)

/-! ## Helper lemmas -/

theorem getD_append_length {α : Type} (l : List α) (x d : α) :
    (l ++ [x]).getD l.length d = x := by
  induction l with
  | nil => rfl
  | cons a t ih =>
      simp only [List.cons_append, List.length_cons, List.getD_cons_succ]
      exact ih

theorem getD_set_self {α : Type} (l : List α) (i : Nat) (x d : α) (h : i < l.length) :
    (l.set i x).getD i d = x := by
  induction l generalizing i with
  | nil => simp at h
  | cons a t ih =>
      cases i with
      | zero => rfl
      | succ j => simpa using ih j (by simpa using h)

theorem iterGetQuad_spo : iterGetQuad (orderingsN 0) = id := by
  funext q
  cases q
  rfl

theorem skipWalk_eq_self (t : List Quad) : ∀ prev : Quad,
    (∀ y ∈ t, sameKey3 y prev = false) →
    t.Pairwise (fun a b => sameKey3 b a = false) →
    skipWalk prev t = t := by
  induction t with
  | nil => intro prev _ _; rfl
  | cons y t ih =>
      intro prev h hp
      obtain ⟨hy, ht⟩ := List.pairwise_cons.mp hp
      rw [skipWalk, h y (List.mem_cons_self y t)]
      simp only [Bool.false_eq_true, if_false, List.cons.injEq, true_and]
      exact ih y hy ht

theorem allSkipYields_eq_self (l : List Quad)
    (h : l.Pairwise (fun a b => sameKey3 b a = false)) : allSkipYields l = l := by
  cases l with
  | nil => rfl
  | cons x rest =>
      obtain ⟨hx, hrest⟩ := List.pairwise_cons.mp h
      rw [allSkipYields, skipWalk_eq_self rest x hx hrest]

theorem nNodes_addQuadRef (w : World) (r : NodeRef) :
    (sordAddQuadRef w r).nNodes = w.nNodes := by
  cases r <;> rfl

theorem nNodes_addRefsAll (w : World) (t : Quad) :
    (addRefsAll w t).nNodes = w.nNodes := by
  show ((List.finRange 4).foldl (fun w i => sordAddQuadRef w (t.slot i)) w).nNodes = w.nNodes
  generalize List.finRange 4 = l
  induction l generalizing w with
  | nil => rfl
  | cons i rest ih => rw [List.foldl_cons, ih, nNodes_addQuadRef]

theorem nNodes_dropNode (w : World) (id : Nat) :
    (sordDropNode w id).nNodes = w.nNodes := by
  simp only [sordDropNode]
  split
  · split <;> rfl
  · split <;> rfl

theorem nNodes_dropQuadRef (w : World) (r : NodeRef) :
    (sordDropQuadRef w r).nNodes = w.nNodes := by
  cases r with
  | none => rfl
  | some id =>
      simp only [sordDropQuadRef]
      split
      · rw [nNodes_dropNode]
      · rfl

theorem nNodes_dropRefsAll (w : World) (t : Quad) :
    (dropRefsAll w t).nNodes = w.nNodes := by
  show ((List.finRange 4).foldl (fun w i => sordDropQuadRef w (t.slot i)) w).nNodes = w.nNodes
  generalize List.finRange 4 = l
  induction l generalizing w with
  | nil => rfl
  | cons i rest ih => rw [List.foldl_cons, ih, nNodes_dropQuadRef]

theorem nNodes_sordAdd (w : World) (m : Model) (q : Quad) :
    (sordAdd w m q).1.nNodes = w.nNodes := by
  simp only [sordAdd]
  split
  · exact nNodes_addRefsAll w q
  · rfl

theorem nNodes_sordRemove (w : World) (m : Model) (q : Quad) :
    (sordRemove w m q).1.nNodes = w.nNodes := by
  simp only [sordRemove]
  split
  · exact nNodes_dropRefsAll w q
  · rfl

theorem nNodes_applyOp_le (st : SordState) (op : SordOp) :
    st.world.nNodes ≤ (applyOp st op).world.nNodes := by
  cases op with
  | newUri s =>
      show st.world.nNodes ≤ (sordNewURI st.world s).1.nNodes
      unfold sordNewURI
      split
      · exact le_refl _
      · show st.world.nNodes ≤ st.world.nNodes + 1
        omega
  | newBlank s =>
      show st.world.nNodes ≤ (sordNewBlank st.world s).1.nNodes
      unfold sordNewBlank
      split
      · exact le_refl _
      · show st.world.nNodes ≤ st.world.nNodes + 1
        omega
  | newLit dt s lg =>
      show st.world.nNodes ≤ (sordNewLiteral st.world dt s lg).1.nNodes
      unfold sordNewLiteral
      split
      · exact le_refl _
      · show st.world.nNodes ≤ st.world.nNodes + 1
        omega
  | add q => exact le_of_eq (nNodes_sordAdd st.world st.model q).symm
  | remove q => exact le_of_eq (nNodes_sordRemove st.world st.model q).symm

theorem nNodes_applyOps_le (st : SordState) (ops : List SordOp) :
    st.world.nNodes ≤ (applyOps st ops).world.nNodes := by
  induction ops generalizing st with
  | nil => exact le_refl _
  | cons op rest ih =>
      exact le_trans (nNodes_applyOp_le st op) (ih (applyOp st op))

/-! ## Claim theorems -/

/-- Claim C1 (refuted, code bug): the claim states that after any sequence of
add/remove operations every pair of selected indices stores the same set of
quads and `num_quads` equals every index's length.  On the SPO + OPS model
`exM2` holding the single quad (s, p, o), removing the absent quad (a, p, s)
erases (s, p, o) from the SPO index (the `g_sequence_search` position is the
stored quad, which compares greater than the key) but reaches the end of the
OPS index and returns early, leaving SPO empty, OPS still holding the quad,
and `num_quads` at 1 — so the index sets differ and `num_quads` differs from
the SPO length, contradicting the source's own `assert(i == 0)` and
`assert(sord->n_quads == g_sequence_get_length(sord->indices[SPO]))`. -/
theorem c1_remove_breaks_index_coherence :
    exM2.2.indices 0 = some [exQ] ∧
    exM2.2.indices 2 = some [⟨some 2, some 1, some 0, none⟩] ∧
    exM2.2.nQuads = 1 ∧
    exQaps ≠ exQ ∧
    exM2r.2.indices 0 = some [] ∧
    exM2r.2.indices 2 = some [⟨some 2, some 1, some 0, none⟩] ∧
    exM2r.2.nQuads = 1 := by
  decide

/-- Claim C2 (refuted, code bug): the claim states that `sord_node_equals`
returns true iff the (kind, bytes, datatype, language) tuples are equal,
equivalently iff the references are identical.  The literals "hello"@en and
"hello"@fr are interned as two distinct nodes (their literal hashes differ,
so the second lookup misses), their tuples differ in the language, yet
`sord_node_equals` returns true because `sord_node_compare` only compares the
types and the lexical forms (the source's own `TODO: lang, type` /
`FIXME` comments mark the omission). -/
theorem c2_node_equals_ignores_language :
    exLit1.2 ≠ exLit2.2 ∧
    sordNodeGetLanguage exLit2.1 exLit1.2 = some exEn ∧
    sordNodeGetLanguage exLit2.1 exLit2.2 = some exFr ∧
    sordNodeEquals exLit2.1 exLit1.2 exLit2.2 = true := by
  decide

/-- Claim C3 (refuted, code bug): the claim states that two literal
constructions with the same lexical form but different datatype nodes return
distinct references.  With URIs "x" (node 0) and "y" (node 1) as datatypes,
`sord_new_literal` for "hello"^^x interns node 2, and the subsequent call for
"hello"^^y returns the same node 2: `sord_literal_hash` ignores the datatype
and `sord_literal_equal` compares only the lexical forms (the source's own
`FIXME: type, lang` marks the omission), so the lookup hits the first
literal. -/
theorem c3_literal_datatype_conflated :
    exDT.2 ≠ exDT2.2 ∧
    sordNodeGetDatatype exLit3.1 exLit3.2 = some exDT.2 ∧
    exLit4.2 = exLit3.2 := by
  decide

/-- Claim C4 (refuted, code bug): the claim states that a second add of a
present quad is a no-op, so adding twice increases `num_quads` by one and
leaves the indices duplicate-free.  Adding (s, p, o) twice to the SPO-only
model stores the quad twice and raises `num_quads` to 2: the duplicate check
of `sord_add_to_index` inspects the element at the `g_sequence_search`
position, which on a sorted sequence is the first element strictly greater
than the key, never an equal one — so the check (and the source's
`return; // Quad already stored, do nothing` path) is unreachable. -/
theorem c4_duplicate_add_inserted_twice :
    exAdd1.2.nQuads = 1 ∧
    exAdd1.2.indices 0 = some [exQ] ∧
    exAdd2.2.nQuads = 2 ∧
    exAdd2.2.indices 0 = some [exQ, exQ] := by
  decide

/-- Claim C5 (refuted, code bug): the claim states that removing an absent
quad is silent and leaves the model completely unchanged.  Removing the
absent quad (a, p, o) from the model holding only (s, p, o) erases (s, p, o)
and decrements `num_quads` to 0: `sord_remove` erases whatever element sits
at the `g_sequence_search` position (the first element strictly greater than
the key) whenever that position is not the end, contradicting the source's
`// Quad not found, do nothing` comment. -/
theorem c5_remove_absent_erases_stored_quad :
    exAdd1.2.indices 0 = some [exQ] ∧
    exQapo ≠ exQ ∧
    exRemAbsent.2.indices 0 = some [] ∧
    exRemAbsent.2.nQuads = 0 := by
  decide

/-- Claim C6 (refuted, code bug): the claim states that add followed by
remove of the same quad restores the original state.  Adding (s, p, o) to the
empty SPO-only model and then removing it leaves the quad stored and
`num_quads` at 1: `g_sequence_search` for the stored quad returns the
position after it — here the end — so `sord_remove` takes its not-found path
and does nothing. -/
theorem c6_add_remove_leaves_quad_behind :
    (sordNew 1 false).nQuads = 0 ∧
    (sordNew 1 false).indices 0 = some [] ∧
    exRemPresent.2.nQuads = 1 ∧
    exRemPresent.2.indices 0 = some [exQ] := by
  decide

/-- Claim C7 counterexample: on the SPO + GSPO model `exG2` storing the two
quads (s, p, o, a) and (s, p, o, b), the all-wildcard `find` (which is
`sord_begin`) yields only (s, p, o, a): `sord_iter_new` sets `skip_graphs`
for every triple ordering (`order < GSPO`), so `sord_iter_forward` skips the
second quad, whose first three SPO-index slots equal the first's.  The quad
(s, p, o, b) is stored but visited zero times, refuting the claim that each
stored quad — including quads sharing (S, P, O) but differing in graph — is
yielded exactly once. -/
theorem c7_skip_graphs_counterexample :
    exG2.2.nQuads = 2 ∧
    exG2.2.indices 0 = some [exQga, exQgb] ∧
    sordBeginYields exG2.2 = [exQga] ∧
    exQgb ∉ sordBeginYields exG2.2 := by
  decide

/-- Claim C7 (amended): for a model whose SPO index stores quads with
pairwise distinct (S, P, O) triples (and whose quad counter matches the index
length), the all-wildcard iteration of `sord_begin` / `sord_find` visits each
stored quad exactly once, in index order.  (When stored quads share a triple,
the skip-graphs walk yields only the first of each run — see the
counterexample.) -/
theorem c7_begin_visits_each_quad_once_when_triples_distinct
    (m : Model) (l : List Quad)
    (hidx : m.indices 0 = some l)
    (hcnt : m.nQuads = l.length)
    (hdist : l.Pairwise (fun a b => sameKey3 b a = false)) :
    sordBeginYields m = l := by
  unfold sordBeginYields
  rw [hidx]
  by_cases h0 : m.nQuads = 0
  · rw [if_pos h0]
    rw [hcnt] at h0
    have : l.length = 0 := by exact_mod_cast h0
    rw [List.length_eq_zero.mp this]
  · rw [if_neg h0]
    simp only [Option.getD_some]
    rw [allSkipYields_eq_self l hdist, iterGetQuad_spo, List.map_id]

/-- Claim C7 witness: the amended theorem applied to the concrete model
holding the single quad (s, p, o). -/
theorem c7_begin_visits_witness :
    exAdd1.2.indices 0 = some [exQ] ∧
    exAdd1.2.nQuads = ([exQ] : List Quad).length ∧
    ([exQ] : List Quad).Pairwise (fun a b => sameKey3 b a = false) ∧
    sordBeginYields exAdd1.2 = [exQ] :=
  ⟨by decide, by decide, by decide,
   c7_begin_visits_each_quad_once_when_triples_distinct exAdd1.2 [exQ]
     (by decide) (by decide) (by decide)⟩

/-- Claim C8 counterexample: constructing the literal "hi" with both the
datatype "x" and the language "en" yields a node on which
`sord_node_get_datatype` returns the datatype, not null — refuting the claim
that the datatype is ignored and `node_datatype` returns null. -/
theorem c8_datatype_not_ignored_counterexample :
    sordNodeGetLanguage exLit5.1 exLit5.2 = some exEn ∧
    sordNodeGetDatatype exLit5.1 exLit5.2 = some exDT.2 ∧
    sordNodeGetDatatype exLit5.1 exLit5.2 ≠ none := by
  decide

/-- Claim C8 (amended): when `sord_new_literal` is called with both a non-null
datatype and a non-null language and the literal is freshly interned (no
equal entry in the literals table), the resulting node stores both fields:
`node_datatype` returns the given datatype and `node_language` returns the
given language.  (`sord_new_literal_node` assigns both unconditionally.) -/
theorem c8_both_datatype_and_language_stored
    (w : World) (dt : Nat) (str : Str) (lang : Str)
    (hfresh : sordLookupLiteral w (some dt) str (some lang) = none) :
    sordNodeGetDatatype (sordNewLiteral w (some dt) str (some lang)).1
        (sordNewLiteral w (some dt) str (some lang)).2 = some dt ∧
    sordNodeGetLanguage (sordNewLiteral w (some dt) str (some lang)).1
        (sordNewLiteral w (some dt) str (some lang)).2 = some lang := by
  simp only [sordNewLiteral, hfresh, sordNodeGetDatatype, sordNodeGetLanguage,
    sordAddNodeW, getNode]
  constructor
  · rw [getD_set_self]
    · rw [getD_append_length]
      rfl
    · simp
  · rw [getD_set_self]
    · rw [getD_append_length]
      rfl
    · simp

/-- Claim C8 witness: the amended theorem applied to the literal "hi" with
datatype "x" and language "en" in the world `exDT.1`. -/
theorem c8_both_stored_witness :
    sordLookupLiteral exDT.1 (some exDT.2) [104, 105] (some exEn) = none ∧
    sordNodeGetDatatype exLit5.1 exLit5.2 = some exDT.2 ∧
    sordNodeGetLanguage exLit5.1 exLit5.2 = some exEn :=
  ⟨by decide,
   (c8_both_datatype_and_language_stored exDT.1 exDT.2 [104, 105] exEn (by decide)).1,
   (c8_both_datatype_and_language_stored exDT.1 exDT.2 [104, 105] exEn (by decide)).2⟩

/-- Claim C9 (refuted, code bug): the claim states that `find` on a pattern
with no matching quad returns a terminal or null iterator, observed as end
immediately.  On the SPO + GSPO model holding only (s, p, o, b), the pattern
(*, *, *, a) matches no stored quad (both in logical order and permuted into
the GSPO index), yet `sord_find` — which takes mode ALL with the GSPO order
for a graph-only signature and checks the found entry only for the RANGE and
SINGLE modes — returns a non-terminal iterator positioned on a non-matching
entry, violating the `assert` in `sord_iter_new`'s ALL branch. -/
theorem c9_graph_only_pattern_iterator_not_terminal :
    ((exG3.2.indices 0).getD []).all (fun q => !(sordQuadMatch exPat9 q)) = true ∧
    ((exG3.2.indices 6).getD []).all
      (fun k => !(sordQuadMatch (permuteKey (orderingsN 6) exPat9) k)) = true ∧
    sordIterEnd (sordFind exG3.1 exG3.2 exPat9) = false := by
  decide

/-- Claim C10 (confirmed): the world's node counter is monotone
non-decreasing over every operation sequence — each operation either leaves
`n_nodes` unchanged (interner hit, add, remove — `sord_drop_node` removes a
node from the interner without touching the counter) or increments it by one
(fresh intern in `sord_add_node`); in particular `sord_add` and `sord_remove`
never change it. -/
theorem c10_num_nodes_monotone :
    (∀ (st : SordState) (ops : List SordOp),
        st.world.nNodes ≤ (applyOps st ops).world.nNodes) ∧
    (∀ (st : SordState) (q : Quad),
        (applyOp st (.add q)).world.nNodes = st.world.nNodes) ∧
    (∀ (st : SordState) (q : Quad),
        (applyOp st (.remove q)).world.nNodes = st.world.nNodes) :=
  ⟨nNodes_applyOps_le,
   fun st q => nNodes_sordAdd st.world st.model q,
   fun st q => nNodes_sordRemove st.world st.model q⟩

end Sord
